import Mathlib

/-
Verification of a Bitcoin JSON-RPC client script.

The script has two classes and a main routine:
  * BitcoinWallet: creates or loads a named wallet on the remote node
    (tolerating a "wallet already exists" fault), and guards address
    generation, mining and wallet-RPC access behind wallet initialization.
  * BitcoinTransaction.send: builds a transaction paying a recipient and
    embedding an OP_RETURN message, then funds, signs and broadcasts it
    through four remote calls in sequence.
  * main: runs the pipeline and writes the broadcast txid to a local file.

Remote calls are modelled as oracles returning `Except PyErr v`; `send`
additionally records the trace of remote calls it performs, in order.
-/

/-- A Python exception as seen by this script: a `JSONRPCException` raised by
the RPC proxy, carrying its string representation, or any other exception. -/
inductive PyErr where
  | jsonrpc (msg : String)
  | other (msg : String)
deriving DecidableEq

/-- Python substring test `pat in s` on strings. -/
def containsSubstr (s pat : String) : Bool :=
  decide (pat.data <:+: s.data)

/-- The wallet-scoped RPC URL built by `create_or_load_wallet`. -/
def walletHandle (rpc_url wallet_name : String) : String :=
  rpc_url ++ "/wallet/" ++ wallet_name

/-- The state of a `BitcoinWallet` object: connection URL, wallet name, and
the wallet-scoped RPC handle, `none` until `create_or_load_wallet` completes. -/
structure BitcoinWallet where
  rpc_url : String
  wallet_name : String
  wallet_rpc : Option String
deriving DecidableEq

/-- `BitcoinWallet.create_or_load_wallet`: attempts remote wallet creation;
`createResp` is the outcome of the remote `createwallet(wallet_name)` call.
A `JSONRPCException` whose text contains "already exists" is swallowed;
any other fault propagates.  On success the wallet-scoped handle is set. -/
def BitcoinWallet.create_or_load_wallet (w : BitcoinWallet)
    (createResp : Except PyErr Unit) : Except PyErr BitcoinWallet :=
  match createResp with
  | .ok _ =>
      .ok { w with wallet_rpc := some (walletHandle w.rpc_url w.wallet_name) }
  | .error (.jsonrpc msg) =>
      if containsSubstr msg "already exists" then
        .ok { w with wallet_rpc := some (walletHandle w.rpc_url w.wallet_name) }
      else
        .error (.jsonrpc msg)
  | .error (.other msg) => .error (.other msg)

/-- The message of the generic `Exception` raised by the initialization guard. -/
def notInitializedMsg : String :=
  "wallet not initialized. call create_or_load_wallet() first."

/-- `BitcoinWallet.generate_new_address`: guarded remote `getnewaddress`. -/
def BitcoinWallet.generate_new_address (w : BitcoinWallet)
    (getnewaddress : String → Except PyErr String) : Except PyErr String :=
  match w.wallet_rpc with
  | none => .error (.other notInitializedMsg)
  | some h => getnewaddress h

/-- `BitcoinWallet.mine_blocks`: guarded remote `generatetoaddress`. -/
def BitcoinWallet.mine_blocks (w : BitcoinWallet)
    (generatetoaddress : String → Nat → String → Except PyErr Unit)
    (num_blocks : Nat) (address : String) : Except PyErr Unit :=
  match w.wallet_rpc with
  | none => .error (.other notInitializedMsg)
  | some h => generatetoaddress h num_blocks address

/-- `BitcoinWallet.get_wallet_rpc`: guarded access to the wallet handle. -/
def BitcoinWallet.get_wallet_rpc (w : BitcoinWallet) : Except PyErr String :=
  match w.wallet_rpc with
  | none => .error (.other notInitializedMsg)
  | some h => .ok h

/-- A value of the transaction-outputs dict: a numeric amount or a string. -/
inductive OutVal where
  | num (a : Rat)
  | str (s : String)
deriving DecidableEq

/-- Key insertion as performed by a Python dict literal: a repeated key
overwrites the existing entry in place, a new key is appended. -/
def dictInsert (d : List (String × OutVal)) (k : String) (v : OutVal) :
    List (String × OutVal) :=
  if d.any (fun p => p.1 == k) then
    d.map (fun p => if p.1 == k then (k, v) else p)
  else
    d ++ [(k, v)]

/-- UTF-8 encoding of one character, bytes as natural numbers below 256. -/
def utf8EncodeChar (c : Char) : List Nat :=
  let n := c.toNat
  if n < 128 then
    [n]
  else if n < 2048 then
    [192 + n / 64, 128 + n % 64]
  else if n < 65536 then
    [224 + n / 4096, 128 + n / 64 % 64, 128 + n % 64]
  else
    [240 + n / 262144, 128 + n / 4096 % 64, 128 + n / 64 % 64, 128 + n % 64]

/-- UTF-8 encoding of a character sequence, Python `message.encode("utf-8")`. -/
def utf8Encode (cs : List Char) : List Nat :=
  cs.flatMap utf8EncodeChar

/-- The lowercase hex digit for a value below 16. -/
def hexDigitChar (n : Nat) : Char :=
  if n < 10 then Char.ofNat (48 + n) else Char.ofNat (87 + n)

/-- Two lowercase hex digits for one byte. -/
def byteToHex (b : Nat) : List Char :=
  [hexDigitChar (b / 16), hexDigitChar (b % 16)]

/-- Python `message.encode("utf-8").hex()`: the OP_RETURN payload of `send`. -/
def opReturnHex (message : String) : String :=
  String.mk ((utf8Encode message.data).flatMap byteToHex)

/-- The outputs dict of `send`: recipient payment entry, then "data" entry. -/
def sendOutputs (recipient_address : String) (amount : Rat)
    (op_return_hex : String) : List (String × OutVal) :=
  dictInsert (dictInsert [] recipient_address (OutVal.num amount)) "data"
    (OutVal.str op_return_hex)

/-- The result of the remote `fundrawtransaction` call, exposing the funded
transaction hex used by the script. -/
structure FundResult where
  hex : String
deriving DecidableEq

/-- The result of the remote `signrawtransactionwithwallet` call: the signed
transaction hex and the completeness flag reported by the wallet. -/
structure SignResult where
  hex : String
  complete : Bool
deriving DecidableEq

/-- The remote node as seen through the wallet RPC handle: one oracle per
remote method used by `send`. -/
structure NodeRPC where
  createrawtransaction : List Unit → List (String × OutVal) → Except PyErr String
  fundrawtransaction : String → Rat → Except PyErr FundResult
  signrawtransactionwithwallet : String → Except PyErr SignResult
  sendrawtransaction : String → Except PyErr String

/-- One remote call performed by `send`, with the arguments passed to it. -/
inductive Call where
  | createrawtransaction (inputs : List Unit) (outputs : List (String × OutVal))
  | fundrawtransaction (hexstring : String) (feeRate : Rat)
  | signrawtransactionwithwallet (hexstring : String)
  | sendrawtransaction (hexstring : String)
deriving DecidableEq

/-- `BitcoinTransaction.send`: hex-encodes the message, builds the outputs
dict, then creates, funds, signs and broadcasts the transaction through the
remote node.  Returns the result (txid or the first fault) together with the
ordered trace of remote calls performed. -/
def BitcoinTransaction.send (node : NodeRPC) (recipient_address message : String)
    (amount feeRate : Rat) : Except PyErr String × List Call :=
  let op_return_hex := opReturnHex message
  let outputs := sendOutputs recipient_address amount op_return_hex
  match node.createrawtransaction [] outputs with
  | .error e => (.error e, [Call.createrawtransaction [] outputs])
  | .ok raw_tx =>
    match node.fundrawtransaction raw_tx feeRate with
    | .error e =>
        (.error e, [Call.createrawtransaction [] outputs,
          Call.fundrawtransaction raw_tx feeRate])
    | .ok funded_tx =>
      match node.signrawtransactionwithwallet funded_tx.hex with
      | .error e =>
          (.error e, [Call.createrawtransaction [] outputs,
            Call.fundrawtransaction raw_tx feeRate,
            Call.signrawtransactionwithwallet funded_tx.hex])
      | .ok signed_tx =>
        match node.sendrawtransaction signed_tx.hex with
        | .error e =>
            (.error e, [Call.createrawtransaction [] outputs,
              Call.fundrawtransaction raw_tx feeRate,
              Call.signrawtransactionwithwallet funded_tx.hex,
              Call.sendrawtransaction signed_tx.hex])
        | .ok txid =>
            (.ok txid, [Call.createrawtransaction [] outputs,
              Call.fundrawtransaction raw_tx feeRate,
              Call.signrawtransactionwithwallet funded_tx.hex,
              Call.sendrawtransaction signed_tx.hex])

/-- The tail of `main` after the `send` call: on a fault the exception
propagates and the file keeps its previous contents; otherwise one more block
is mined (whose fault would also abort before the write) and the txid is
written as the full contents of the output file. -/
def mainTail (sendRes : Except PyErr String) (mineRes : Except PyErr Unit)
    (fileBefore : Option String) : Except PyErr Unit × Option String :=
  match sendRes with
  | .error e => (.error e, fileBefore)
  | .ok txid =>
    match mineRes with
    | .error e => (.error e, fileBefore)
    | .ok _ => (.ok (), some txid)

/-- Hex value of one character, as read back by a hex decoder. -/
def hexCharVal (c : Char) : Option Nat :=
  let n := c.toNat
  if 48 ≤ n ∧ n ≤ 57 then some (n - 48)
  else if 97 ≤ n ∧ n ≤ 102 then some (n - 87)
  else if 65 ≤ n ∧ n ≤ 70 then some (n - 55)
  else none

/-- Decodes a hex string (as characters) back into bytes. -/
def hexDecode : List Char → Option (List Nat)
  | [] => some []
  | [_] => none
  | c1 :: c2 :: rest =>
    match hexCharVal c1, hexCharVal c2, hexDecode rest with
    | some h, some l, some bs => some ((16 * h + l) :: bs)
    | _, _, _ => none

/-- Decodes one UTF-8 encoded code point from a byte list, returning the code
point and the remaining bytes.  Rejects stray continuation bytes, truncated
sequences and non-minimal encodings. -/
def utf8DecodeChar : List Nat → Option (Nat × List Nat)
  | [] => none
  | b0 :: rest =>
    if b0 < 128 then some (b0, rest)
    else if b0 < 192 then none
    else if b0 < 224 then
      match rest with
      | b1 :: rest1 =>
        if 128 ≤ b1 ∧ b1 < 192 then
          let n := (b0 - 192) * 64 + (b1 - 128)
          if 128 ≤ n then some (n, rest1) else none
        else none
      | [] => none
    else if b0 < 240 then
      match rest with
      | b1 :: b2 :: rest2 =>
        if (128 ≤ b1 ∧ b1 < 192) ∧ (128 ≤ b2 ∧ b2 < 192) then
          let n := (b0 - 224) * 4096 + (b1 - 128) * 64 + (b2 - 128)
          if 2048 ≤ n then some (n, rest2) else none
        else none
      | _ => none
    else if b0 < 248 then
      match rest with
      | b1 :: b2 :: b3 :: rest3 =>
        if (128 ≤ b1 ∧ b1 < 192) ∧ (128 ≤ b2 ∧ b2 < 192) ∧ (128 ≤ b3 ∧ b3 < 192) then
          let n := (b0 - 240) * 262144 + (b1 - 128) * 4096 + (b2 - 128) * 64 + (b3 - 128)
          if 65536 ≤ n then some (n, rest3) else none
        else none
      | _ => none
    else none

/-- Fuelled UTF-8 decoding of a whole byte list into characters. -/
def utf8DecodeAux : Nat → List Nat → Option (List Char)
  | _, [] => some []
  | 0, _ :: _ => none
  | fuel + 1, b :: bs =>
    (utf8DecodeChar (b :: bs)).bind fun p =>
      if Nat.isValidChar p.1 then
        (utf8DecodeAux fuel p.2).map fun cs => Char.ofNat p.1 :: cs
      else none

/-- UTF-8 decoding of a byte list into characters. -/
def utf8Decode (bs : List Nat) : Option (List Char) :=
  utf8DecodeAux bs.length bs

/-- Decodes an OP_RETURN hex payload back into the message text: hex digits
to bytes, then UTF-8 bytes to text. -/
def decodeMessage (hexPayload : String) : Option String :=
  (hexDecode hexPayload.data).bind fun bs =>
    (utf8Decode bs).map fun cs => String.mk cs

/-- The property claimed of the outputs dict: exactly one payment entry for
the recipient and amount, exactly one null-data entry with the message hex,
and nothing else. -/
def outputsExact (outs : List (String × OutVal)) (recipient : String)
    (amount : Rat) (op_return_hex : String) : Prop :=
  outs.count (recipient, OutVal.num amount) = 1 ∧
  outs.count ("data", OutVal.str op_return_hex) = 1 ∧
  outs.length = 2

/-- A test node on which every stage succeeds. -/
def nodeAllOk : NodeRPC where
  createrawtransaction := fun _ _ => .ok "rawhex"
  fundrawtransaction := fun _ _ => .ok ⟨"fundedhex"⟩
  signrawtransactionwithwallet := fun _ => .ok ⟨"signedhex", true⟩
  sendrawtransaction := fun _ => .ok "txid0"

/-- A test node whose funding stage reports an insufficient-balance fault. -/
def nodeFundFail : NodeRPC where
  createrawtransaction := fun _ _ => .ok "rawhex"
  fundrawtransaction := fun _ _ => .error (.jsonrpc "Insufficient funds")
  signrawtransactionwithwallet := fun _ => .ok ⟨"signedhex", true⟩
  sendrawtransaction := fun _ => .ok "txid0"

/-- A test node whose wallet signs but reports the signature as incomplete. -/
def nodeSignIncomplete : NodeRPC where
  createrawtransaction := fun _ _ => .ok "rawhex"
  fundrawtransaction := fun _ _ => .ok ⟨"fundedhex"⟩
  signrawtransactionwithwallet := fun _ => .ok ⟨"signedhex", false⟩
  sendrawtransaction := fun _ => .ok "txid0"

theorem charToNat_valid (c : Char) :
    c.toNat < 55296 ∨ (57344 ≤ c.toNat ∧ c.toNat < 1114112) := c.valid

theorem hexCharVal_hexDigitChar (d : Nat) (h : d < 16) :
    hexCharVal (hexDigitChar d) = some d := by
  interval_cases d <;> decide

theorem hexDecode_byteToHex (b : Nat) (hb : b < 256) (l : List Char) :
    hexDecode (byteToHex b ++ l) = (hexDecode l).map fun bs => b :: bs := by
  have he : byteToHex b ++ l = hexDigitChar (b / 16) :: hexDigitChar (b % 16) :: l := by
    simp [byteToHex]
  rw [he]
  simp only [hexDecode, hexCharVal_hexDigitChar (b / 16) (by omega),
    hexCharVal_hexDigitChar (b % 16) (by omega)]
  cases hexDecode l with
  | none => rfl
  | some bs =>
    have hbb : 16 * (b / 16) + b % 16 = b := by omega
    simp [hbb]

theorem hexDecode_flatMap (bs : List Nat) (h : ∀ b ∈ bs, b < 256) :
    hexDecode (bs.flatMap byteToHex) = some bs := by
  induction bs with
  | nil => rfl
  | cons b bs ih =>
    simp only [List.flatMap_cons]
    rw [hexDecode_byteToHex b (h b (by simp)) _,
      ih (fun x hx => h x (by simp [hx]))]
    rfl

theorem utf8EncodeChar_lt (c : Char) : ∀ x ∈ utf8EncodeChar c, x < 256 := by
  have hv : c.toNat < 1114112 := by rcases charToNat_valid c with h | h <;> omega
  intro x hx
  simp only [utf8EncodeChar] at hx
  split_ifs at hx <;> simp only [List.mem_cons, List.not_mem_nil, or_false] at hx <;> omega

theorem utf8DecodeChar_one (n : Nat) (h : n < 128) (rest : List Nat) :
    utf8DecodeChar (n :: rest) = some (n, rest) := by
  simp only [utf8DecodeChar]
  rw [if_pos h]

theorem utf8DecodeChar_two (n : Nat) (h1 : 128 ≤ n) (h2 : n < 2048) (rest : List Nat) :
    utf8DecodeChar ((192 + n / 64) :: (128 + n % 64) :: rest) = some (n, rest) := by
  simp only [utf8DecodeChar]
  rw [if_neg (by omega), if_neg (by omega), if_pos (by omega)]
  rw [if_pos (by omega : 128 ≤ 128 + n % 64 ∧ 128 + n % 64 < 192)]
  rw [if_pos (by omega)]
  have hn : (192 + n / 64 - 192) * 64 + (128 + n % 64 - 128) = n := by omega
  rw [hn]

theorem utf8DecodeChar_three (n : Nat) (h1 : 2048 ≤ n) (h2 : n < 65536) (rest : List Nat) :
    utf8DecodeChar ((224 + n / 4096) :: (128 + n / 64 % 64) :: (128 + n % 64) :: rest) =
      some (n, rest) := by
  simp only [utf8DecodeChar]
  rw [if_neg (by omega), if_neg (by omega), if_neg (by omega), if_pos (by omega)]
  rw [if_pos (by omega :
    (128 ≤ 128 + n / 64 % 64 ∧ 128 + n / 64 % 64 < 192) ∧
      128 ≤ 128 + n % 64 ∧ 128 + n % 64 < 192)]
  rw [if_pos (by omega)]
  have hn : (224 + n / 4096 - 224) * 4096 + (128 + n / 64 % 64 - 128) * 64 +
      (128 + n % 64 - 128) = n := by omega
  rw [hn]

theorem utf8DecodeChar_four (n : Nat) (h1 : 65536 ≤ n) (h2 : n < 1114112) (rest : List Nat) :
    utf8DecodeChar ((240 + n / 262144) :: (128 + n / 4096 % 64) ::
      (128 + n / 64 % 64) :: (128 + n % 64) :: rest) = some (n, rest) := by
  simp only [utf8DecodeChar]
  rw [if_neg (by omega), if_neg (by omega), if_neg (by omega), if_neg (by omega),
    if_pos (by omega)]
  rw [if_pos (by omega :
    (128 ≤ 128 + n / 4096 % 64 ∧ 128 + n / 4096 % 64 < 192) ∧
      (128 ≤ 128 + n / 64 % 64 ∧ 128 + n / 64 % 64 < 192) ∧
        128 ≤ 128 + n % 64 ∧ 128 + n % 64 < 192)]
  rw [if_pos (by omega)]
  have hn : (240 + n / 262144 - 240) * 262144 + (128 + n / 4096 % 64 - 128) * 4096 +
      (128 + n / 64 % 64 - 128) * 64 + (128 + n % 64 - 128) = n := by omega
  rw [hn]

theorem utf8DecodeChar_encodeChar (c : Char) (rest : List Nat) :
    utf8DecodeChar (utf8EncodeChar c ++ rest) = some (c.toNat, rest) := by
  have hv : c.toNat < 1114112 := by rcases charToNat_valid c with h | h <;> omega
  by_cases h1 : c.toNat < 128
  · rw [show utf8EncodeChar c = [c.toNat] from by simp [utf8EncodeChar, h1]]
    simpa using utf8DecodeChar_one c.toNat h1 rest
  · by_cases h2 : c.toNat < 2048
    · rw [show utf8EncodeChar c = [192 + c.toNat / 64, 128 + c.toNat % 64] from by
        simp [utf8EncodeChar, h1, h2]]
      simpa using utf8DecodeChar_two c.toNat (by omega) h2 rest
    · by_cases h3 : c.toNat < 65536
      · rw [show utf8EncodeChar c =
            [224 + c.toNat / 4096, 128 + c.toNat / 64 % 64, 128 + c.toNat % 64] from by
          simp [utf8EncodeChar, h1, h2, h3]]
        simpa using utf8DecodeChar_three c.toNat (by omega) h3 rest
      · rw [show utf8EncodeChar c = [240 + c.toNat / 262144, 128 + c.toNat / 4096 % 64,
            128 + c.toNat / 64 % 64, 128 + c.toNat % 64] from by
          simp [utf8EncodeChar, h1, h2, h3]]
        simpa using utf8DecodeChar_four c.toNat (by omega) (by omega) rest

theorem utf8EncodeChar_ne_nil (c : Char) : utf8EncodeChar c ≠ [] := by
  simp only [utf8EncodeChar]
  split_ifs <;> simp

theorem le_length_utf8Encode (cs : List Char) : cs.length ≤ (utf8Encode cs).length := by
  induction cs with
  | nil => simp [utf8Encode]
  | cons c cs ih =>
    simp only [utf8Encode, List.flatMap_cons, List.length_append, List.length_cons] at *
    have h1 : 1 ≤ (utf8EncodeChar c).length := by
      cases h : utf8EncodeChar c with
      | nil => exact absurd h (utf8EncodeChar_ne_nil c)
      | cons _ _ => simp
    omega

theorem utf8DecodeAux_encode (cs : List Char) : ∀ fuel, cs.length ≤ fuel →
    utf8DecodeAux fuel (utf8Encode cs) = some cs := by
  induction cs with
  | nil => intro fuel _; cases fuel <;> rfl
  | cons c cs ih =>
    intro fuel hf
    cases fuel with
    | zero => simp at hf
    | succ fuel =>
      have hval : Nat.isValidChar c.toNat := c.valid
      have hih := ih fuel (by simpa using hf)
      cases hcc : utf8EncodeChar c with
      | nil => exact absurd hcc (utf8EncodeChar_ne_nil c)
      | cons b bs =>
        have henc : utf8Encode (c :: cs) = b :: (bs ++ utf8Encode cs) := by
          simp [utf8Encode, hcc]
        rw [henc]
        have hd : utf8DecodeChar (b :: (bs ++ utf8Encode cs)) =
            some (c.toNat, utf8Encode cs) := by
          rw [← List.cons_append, ← hcc]
          exact utf8DecodeChar_encodeChar c _
        simp only [utf8DecodeAux]
        rw [hd]
        simp [hval, hih]

theorem utf8Decode_encode (cs : List Char) : utf8Decode (utf8Encode cs) = some cs :=
  utf8DecodeAux_encode cs _ (le_length_utf8Encode cs)

theorem decodeMessage_opReturnHex (m : String) : decodeMessage (opReturnHex m) = some m := by
  have hb : ∀ b ∈ utf8Encode m.data, b < 256 := by
    intro b hbm
    simp only [utf8Encode, List.mem_flatMap] at hbm
    obtain ⟨c, _, hc⟩ := hbm
    exact utf8EncodeChar_lt c b hc
  simp only [decodeMessage, opReturnHex]
  rw [hexDecode_flatMap _ hb]
  simp [utf8Decode_encode]

theorem containsSubstr_append (pre pat post : String) :
    containsSubstr (pre ++ pat ++ post) pat = true := by
  simp only [containsSubstr, decide_eq_true_eq]
  exact ⟨pre.data, post.data, by simp⟩

/-- C1: wallet setup treats a remote fault whose text reports "already exists"
as success and returns the wallet with the wallet-scoped handle set; any other
remote fault propagates unchanged, so a second run against an existing wallet
does not raise. -/
theorem c1_create_or_load_wallet_idempotent (w : BitcoinWallet) (msg : String) :
    (w.create_or_load_wallet (.ok ()) =
      .ok { w with wallet_rpc := some (walletHandle w.rpc_url w.wallet_name) }) ∧
    (containsSubstr msg "already exists" = true →
      w.create_or_load_wallet (.error (.jsonrpc msg)) =
        .ok { w with wallet_rpc := some (walletHandle w.rpc_url w.wallet_name) }) ∧
    (containsSubstr msg "already exists" = false →
      w.create_or_load_wallet (.error (.jsonrpc msg)) = .error (.jsonrpc msg)) ∧
    (w.create_or_load_wallet (.error (.other msg)) = .error (.other msg)) := by
  refine ⟨rfl, fun h => ?_, fun h => ?_, rfl⟩
  · simp [BitcoinWallet.create_or_load_wallet, h]
  · simp [BitcoinWallet.create_or_load_wallet, h]

/-- Witness for C1: a second creation attempt reporting "already exists"
succeeds, while an unrelated fault propagates. -/
theorem c1_create_or_load_wallet_idempotent_witness :
    (BitcoinWallet.mk "http://u" "testwallet" none).create_or_load_wallet
        (.error (.jsonrpc "Wallet testwallet already exists.")) =
      .ok (BitcoinWallet.mk "http://u" "testwallet"
        (some (walletHandle "http://u" "testwallet"))) ∧
    (BitcoinWallet.mk "http://u" "testwallet" none).create_or_load_wallet
        (.error (.jsonrpc "Insufficient funds")) =
      .error (.jsonrpc "Insufficient funds") :=
  ⟨(c1_create_or_load_wallet_idempotent (BitcoinWallet.mk "http://u" "testwallet" none)
      "Wallet testwallet already exists.").2.1 (by decide),
   (c1_create_or_load_wallet_idempotent (BitcoinWallet.mk "http://u" "testwallet" none)
      "Insufficient funds").2.2.1 (by decide)⟩

/-- C9: the benign-fault test is a plain substring match on the exception
text: any JSONRPCException whose text contains "already exists" anywhere is
swallowed, any JSONRPCException without that substring propagates, and an
exception of any other type propagates even if its text has the substring. -/
theorem c9_substring_match_on_fault_text (w : BitcoinWallet) :
    (∀ pre post : String,
      w.create_or_load_wallet (.error (.jsonrpc (pre ++ "already exists" ++ post))) =
        .ok { w with wallet_rpc := some (walletHandle w.rpc_url w.wallet_name) }) ∧
    (∀ msg, containsSubstr msg "already exists" = false →
      w.create_or_load_wallet (.error (.jsonrpc msg)) = .error (.jsonrpc msg)) ∧
    (∀ msg, containsSubstr msg "already exists" = true →
      w.create_or_load_wallet (.error (.other msg)) = .error (.other msg)) := by
  refine ⟨fun pre post => ?_, fun msg h => ?_, fun msg _ => rfl⟩
  · simp [BitcoinWallet.create_or_load_wallet, containsSubstr_append]
  · simp [BitcoinWallet.create_or_load_wallet, h]

/-- Witness for C9: a fault mentioning "already exists" mid-sentence is
swallowed even though it is not a wallet-creation fault. -/
theorem c9_substring_match_on_fault_text_witness :
    (BitcoinWallet.mk "http://u" "testwallet" none).create_or_load_wallet
        (.error (.jsonrpc ("A file named x " ++ "already exists" ++ " on disk"))) =
      .ok (BitcoinWallet.mk "http://u" "testwallet"
        (some (walletHandle "http://u" "testwallet"))) ∧
    (BitcoinWallet.mk "http://u" "testwallet" none).create_or_load_wallet
        (.error (.other ("A file named x " ++ "already exists" ++ " on disk"))) =
      .error (.other ("A file named x " ++ "already exists" ++ " on disk")) :=
  ⟨(c9_substring_match_on_fault_text (BitcoinWallet.mk "http://u" "testwallet" none)).1
      "A file named x " " on disk",
   (c9_substring_match_on_fault_text (BitcoinWallet.mk "http://u" "testwallet" none)).2.2
      ("A file named x " ++ "already exists" ++ " on disk") (by decide)⟩

/-- C7: while the wallet handle is uninitialized, address generation, mining
and wallet-RPC access all fail with the initialization error for every remote
oracle, making no remote call; once the handle is set, each operation goes
straight to the remote call with no further checks. -/
theorem c7_initialization_guard (w : BitcoinWallet)
    (getnewaddress : String → Except PyErr String)
    (generatetoaddress : String → Nat → String → Except PyErr Unit) :
    (w.wallet_rpc = none →
      w.generate_new_address getnewaddress = .error (.other notInitializedMsg) ∧
      (∀ n a, w.mine_blocks generatetoaddress n a = .error (.other notInitializedMsg)) ∧
      w.get_wallet_rpc = .error (.other notInitializedMsg)) ∧
    (∀ h, w.wallet_rpc = some h →
      w.generate_new_address getnewaddress = getnewaddress h ∧
      (∀ n a, w.mine_blocks generatetoaddress n a = generatetoaddress h n a) ∧
      w.get_wallet_rpc = .ok h) := by
  constructor
  · intro hn
    refine ⟨?_, fun n a => ?_, ?_⟩ <;>
      simp [BitcoinWallet.generate_new_address, BitcoinWallet.mine_blocks,
        BitcoinWallet.get_wallet_rpc, hn]
  · intro h hh
    refine ⟨?_, fun n a => ?_, ?_⟩ <;>
      simp [BitcoinWallet.generate_new_address, BitcoinWallet.mine_blocks,
        BitcoinWallet.get_wallet_rpc, hh]

/-- Witness for C7: the guard fires on an uninitialized wallet and is the only
check on an initialized one. -/
theorem c7_initialization_guard_witness :
    (BitcoinWallet.mk "http://u" "testwallet" none).generate_new_address
        (fun _ => .ok "addr1") = .error (.other notInitializedMsg) ∧
    (BitcoinWallet.mk "http://u" "testwallet" (some "H")).generate_new_address
        (fun _ => .ok "addr1") = .ok "addr1" :=
  ⟨((c7_initialization_guard (BitcoinWallet.mk "http://u" "testwallet" none)
      (fun _ => .ok "addr1") (fun _ _ _ => .ok ())).1 rfl).1,
   ((c7_initialization_guard (BitcoinWallet.mk "http://u" "testwallet" (some "H"))
      (fun _ => .ok "addr1") (fun _ _ _ => .ok ())).2 "H" rfl).1⟩

/-- C3: the message-to-hex encoding of `send` is deterministic, encodes "hi"
to "6869", and for every message the produced hex decodes back through UTF-8
to the original text. -/
theorem c3_opReturnHex_roundtrip :
    (∀ m : String, opReturnHex m = opReturnHex m) ∧
    opReturnHex "hi" = "6869" ∧
    (∀ m : String, decodeMessage (opReturnHex m) = some m) :=
  ⟨fun _ => rfl, by decide, decodeMessage_opReturnHex⟩

theorem sendOutputs_ne (r : String) (a : Rat) (hx : String) (hr : r ≠ "data") :
    sendOutputs r a hx = [(r, OutVal.num a), ("data", OutVal.str hx)] := by
  simp [sendOutputs, dictInsert, hr]

theorem send_first_call (node : NodeRPC) (r m : String) (a f : Rat) :
    ((BitcoinTransaction.send node r m a f).2).head? =
      some (Call.createrawtransaction [] (sendOutputs r a (opReturnHex m))) := by
  simp only [BitcoinTransaction.send]
  repeat' split
  all_goals rfl

theorem outputsExact_pair (r : String) (a : Rat) (hx : String) :
    outputsExact [(r, OutVal.num a), ("data", OutVal.str hx)] r a hx := by
  refine ⟨?_, ?_, rfl⟩ <;> simp [List.count_cons]

/-- C2 counterexample: with recipient address "data", the outputs dict that
send passes to raw-transaction construction is a single entry, not the
claimed two-entry set with a payment entry for the recipient. -/
theorem c2_outputs_counterexample :
    ((BitcoinTransaction.send nodeAllOk "data" "hi" 100 1).2).head? =
      some (Call.createrawtransaction []
        (sendOutputs "data" 100 (opReturnHex "hi"))) ∧
    ¬ outputsExact (sendOutputs "data" 100 (opReturnHex "hi")) "data" 100
      (opReturnHex "hi") :=
  ⟨by decide, by unfold outputsExact; decide⟩

/-- C2 amended: for every recipient other than the literal string "data", the
outputs dict passed by send to raw-transaction construction holds exactly one
payment entry for the recipient and amount and exactly one null-data entry
carrying the message hex, and nothing else. -/
theorem c2_send_outputs_exact (node : NodeRPC) (r m : String) (a f : Rat)
    (hr : r ≠ "data") :
    ((BitcoinTransaction.send node r m a f).2).head? =
      some (Call.createrawtransaction []
        [(r, OutVal.num a), ("data", OutVal.str (opReturnHex m))]) ∧
    outputsExact (sendOutputs r a (opReturnHex m)) r a (opReturnHex m) := by
  constructor
  · rw [send_first_call, sendOutputs_ne r a (opReturnHex m) hr]
  · rw [sendOutputs_ne r a (opReturnHex m) hr]
    exact outputsExact_pair r a (opReturnHex m)

/-- Witness for the amended C2 at a concrete recipient. -/
theorem c2_send_outputs_exact_witness :
    ((BitcoinTransaction.send nodeAllOk "addr1" "hi" 100 1).2).head? =
      some (Call.createrawtransaction []
        [("addr1", OutVal.num 100), ("data", OutVal.str (opReturnHex "hi"))]) ∧
    outputsExact (sendOutputs "addr1" 100 (opReturnHex "hi")) "addr1" 100
      (opReturnHex "hi") :=
  c2_send_outputs_exact nodeAllOk "addr1" "hi" 100 1 (by decide)

/-- C8: a recipient address equal to the literal string "data" collides with
the null-data key, so the dict built by send collapses to the single
null-data entry instead of two distinct entries. -/
theorem c8_data_key_collision (amount : Rat) (m : String) :
    sendOutputs "data" amount (opReturnHex m) =
      [("data", OutVal.str (opReturnHex m))] ∧
    (sendOutputs "data" amount (opReturnHex m)).length = 1 := by
  have h : sendOutputs "data" amount (opReturnHex m) =
      [("data", OutVal.str (opReturnHex m))] := by
    simp [sendOutputs, dictInsert]
  exact ⟨h, by rw [h]; rfl⟩

/-- C4: a fault at the funding stage makes send abort with that fault before
any signing or broadcast call is made, and the output file keeps whatever
contents it had before the run. -/
theorem c4_fund_fault_aborts (node : NodeRPC) (r m : String) (a f : Rat)
    (raw : String) (e : PyErr) (mineRes : Except PyErr Unit)
    (fileBefore : Option String)
    (h1 : node.createrawtransaction [] (sendOutputs r a (opReturnHex m)) = .ok raw)
    (h2 : node.fundrawtransaction raw f = .error e) :
    BitcoinTransaction.send node r m a f =
      (.error e, [Call.createrawtransaction [] (sendOutputs r a (opReturnHex m)),
        Call.fundrawtransaction raw f]) ∧
    (∀ s, Call.signrawtransactionwithwallet s ∉ (BitcoinTransaction.send node r m a f).2) ∧
    (∀ s, Call.sendrawtransaction s ∉ (BitcoinTransaction.send node r m a f).2) ∧
    mainTail (BitcoinTransaction.send node r m a f).1 mineRes fileBefore =
      (.error e, fileBefore) := by
  have hs : BitcoinTransaction.send node r m a f =
      (.error e, [Call.createrawtransaction [] (sendOutputs r a (opReturnHex m)),
        Call.fundrawtransaction raw f]) := by
    simp only [BitcoinTransaction.send, h1, h2]
  refine ⟨hs, fun s => ?_, fun s => ?_, ?_⟩
  · rw [hs]; simp
  · rw [hs]; simp
  · rw [hs]; rfl

/-- Witness for C4: an insufficient-funds fault at funding leaves a trace
without sign or broadcast calls and an unchanged file. -/
theorem c4_fund_fault_aborts_witness :
    BitcoinTransaction.send nodeFundFail "addr1" "hi" 100 1 =
      (.error (.jsonrpc "Insufficient funds"),
        [Call.createrawtransaction [] (sendOutputs "addr1" 100 (opReturnHex "hi")),
          Call.fundrawtransaction "rawhex" 1]) ∧
    mainTail (BitcoinTransaction.send nodeFundFail "addr1" "hi" 100 1).1 (.ok ())
        (some "old contents") =
      (.error (.jsonrpc "Insufficient funds"), some "old contents") :=
  ⟨(c4_fund_fault_aborts nodeFundFail "addr1" "hi" 100 1 "rawhex"
      (.jsonrpc "Insufficient funds") (.ok ()) (some "old contents") rfl rfl).1,
   (c4_fund_fault_aborts nodeFundFail "addr1" "hi" 100 1 "rawhex"
      (.jsonrpc "Insufficient funds") (.ok ()) (some "old contents") rfl rfl).2.2.2⟩

/-- C5: send performs create-raw, fund, sign, broadcast in this order, each
stage consuming the previous stage's output, a fault at any stage propagating
immediately with no retry, and on success returns exactly the broadcast
identifier. -/
theorem c5_send_pipeline (node : NodeRPC) (r m : String) (a f : Rat) :
    (∀ e, node.createrawtransaction [] (sendOutputs r a (opReturnHex m)) = .error e →
      BitcoinTransaction.send node r m a f =
        (.error e, [Call.createrawtransaction [] (sendOutputs r a (opReturnHex m))])) ∧
    (∀ raw e, node.createrawtransaction [] (sendOutputs r a (opReturnHex m)) = .ok raw →
      node.fundrawtransaction raw f = .error e →
      BitcoinTransaction.send node r m a f =
        (.error e, [Call.createrawtransaction [] (sendOutputs r a (opReturnHex m)),
          Call.fundrawtransaction raw f])) ∧
    (∀ raw funded e,
      node.createrawtransaction [] (sendOutputs r a (opReturnHex m)) = .ok raw →
      node.fundrawtransaction raw f = .ok funded →
      node.signrawtransactionwithwallet funded.hex = .error e →
      BitcoinTransaction.send node r m a f =
        (.error e, [Call.createrawtransaction [] (sendOutputs r a (opReturnHex m)),
          Call.fundrawtransaction raw f,
          Call.signrawtransactionwithwallet funded.hex])) ∧
    (∀ raw funded signed e,
      node.createrawtransaction [] (sendOutputs r a (opReturnHex m)) = .ok raw →
      node.fundrawtransaction raw f = .ok funded →
      node.signrawtransactionwithwallet funded.hex = .ok signed →
      node.sendrawtransaction signed.hex = .error e →
      BitcoinTransaction.send node r m a f =
        (.error e, [Call.createrawtransaction [] (sendOutputs r a (opReturnHex m)),
          Call.fundrawtransaction raw f,
          Call.signrawtransactionwithwallet funded.hex,
          Call.sendrawtransaction signed.hex])) ∧
    (∀ raw funded signed txid,
      node.createrawtransaction [] (sendOutputs r a (opReturnHex m)) = .ok raw →
      node.fundrawtransaction raw f = .ok funded →
      node.signrawtransactionwithwallet funded.hex = .ok signed →
      node.sendrawtransaction signed.hex = .ok txid →
      BitcoinTransaction.send node r m a f =
        (.ok txid, [Call.createrawtransaction [] (sendOutputs r a (opReturnHex m)),
          Call.fundrawtransaction raw f,
          Call.signrawtransactionwithwallet funded.hex,
          Call.sendrawtransaction signed.hex])) := by
  refine ⟨fun e h1 => ?_, fun raw e h1 h2 => ?_, fun raw funded e h1 h2 h3 => ?_,
    fun raw funded signed e h1 h2 h3 h4 => ?_, fun raw funded signed txid h1 h2 h3 h4 => ?_⟩
  · simp only [BitcoinTransaction.send, h1]
  · simp only [BitcoinTransaction.send, h1, h2]
  · simp only [BitcoinTransaction.send, h1, h2, h3]
  · simp only [BitcoinTransaction.send, h1, h2, h3, h4]
  · simp only [BitcoinTransaction.send, h1, h2, h3, h4]

/-- Witness for C5: on a node where every stage succeeds, the trace is the
four stages in order, each consuming the previous output, and the result is
the broadcast identifier. -/
theorem c5_send_pipeline_witness :
    BitcoinTransaction.send nodeAllOk "addr1" "hi" 100 1 =
      (.ok "txid0",
        [Call.createrawtransaction [] (sendOutputs "addr1" 100 (opReturnHex "hi")),
          Call.fundrawtransaction "rawhex" 1,
          Call.signrawtransactionwithwallet "fundedhex",
          Call.sendrawtransaction "signedhex"]) :=
  (c5_send_pipeline nodeAllOk "addr1" "hi" 100 1).2.2.2.2 "rawhex" ⟨"fundedhex"⟩
    ⟨"signedhex", true⟩ "txid0" rfl rfl rfl rfl

/-- C6: when send returns an identifier and the confirmation mining succeeds,
the output file is overwritten to contain exactly that identifier, whatever
the file held before. -/
theorem c6_persist_txid (node : NodeRPC) (r m : String) (a f : Rat)
    (txid : String) (fileBefore : Option String)
    (h : (BitcoinTransaction.send node r m a f).1 = .ok txid) :
    mainTail (BitcoinTransaction.send node r m a f).1 (.ok ()) fileBefore =
      (.ok (), some txid) := by
  rw [h]
  rfl

/-- Witness for C6: a successful run replaces the previous file contents with
exactly the broadcast identifier. -/
theorem c6_persist_txid_witness :
    mainTail (BitcoinTransaction.send nodeAllOk "addr1" "hi" 100 1).1 (.ok ())
      (some "old contents") = (.ok (), some "txid0") :=
  c6_persist_txid nodeAllOk "addr1" "hi" 100 1 "txid0" (some "old contents") rfl

/-- C10: send never inspects the completeness flag of the signing result:
even when the wallet reports complete = false, the broadcast call is
attempted with the returned hex and its outcome is what send returns. -/
theorem c10_ignores_complete_flag (node : NodeRPC) (r m : String) (a f : Rat)
    (raw : String) (funded : FundResult) (signed : SignResult)
    (h1 : node.createrawtransaction [] (sendOutputs r a (opReturnHex m)) = .ok raw)
    (h2 : node.fundrawtransaction raw f = .ok funded)
    (h3 : node.signrawtransactionwithwallet funded.hex = .ok signed)
    (_h4 : signed.complete = false) :
    (BitcoinTransaction.send node r m a f).1 = node.sendrawtransaction signed.hex ∧
    Call.sendrawtransaction signed.hex ∈ (BitcoinTransaction.send node r m a f).2 := by
  have hs : BitcoinTransaction.send node r m a f =
      (node.sendrawtransaction signed.hex,
        [Call.createrawtransaction [] (sendOutputs r a (opReturnHex m)),
          Call.fundrawtransaction raw f,
          Call.signrawtransactionwithwallet funded.hex,
          Call.sendrawtransaction signed.hex]) := by
    cases hb : node.sendrawtransaction signed.hex with
    | error e => simp only [BitcoinTransaction.send, h1, h2, h3, hb]
    | ok t => simp only [BitcoinTransaction.send, h1, h2, h3, hb]
  rw [hs]
  exact ⟨rfl, by simp⟩

/-- Witness for C10: with an incomplete signature the broadcast is still
attempted and its identifier returned. -/
theorem c10_ignores_complete_flag_witness :
    (BitcoinTransaction.send nodeSignIncomplete "addr1" "hi" 100 1).1 =
      nodeSignIncomplete.sendrawtransaction "signedhex" ∧
    Call.sendrawtransaction "signedhex" ∈
      (BitcoinTransaction.send nodeSignIncomplete "addr1" "hi" 100 1).2 :=
  c10_ignores_complete_flag nodeSignIncomplete "addr1" "hi" 100 1 "rawhex"
    ⟨"fundedhex"⟩ ⟨"signedhex", false⟩ rfl rfl rfl rfl
